import Mathlib

/-!
Verification of the aws-tools-cli cost-analysis pipeline.

This file gives a shallow embedding, in Lean, of the orchestration core of
the repository: credential loading (config.ts), the cost-data fetch and
ranking (aws-service.ts), the planning call and the tool-calling loop
(llm.ts), per-tool-call failure shielding (the execute callbacks in llm.ts),
chart-spec sanitisation (chartUtils.ts), the step/report path scheme
(report-generator.ts) and the run orchestrator (analyzer.ts).

External effects (the Bedrock model, the aws-tools data source, the
filesystem clock) are passed in as explicit outcome values; machine floats
are modelled as rationals; JavaScript exceptions become Except values;
JavaScript object values become an inductive Json type with explicit
truthiness.
-/

namespace AwsToolsCli

/-- JavaScript logical-or defaulting on an optional string field
(`x || d`): an absent field and the empty string are both falsy. -/
def jsOr (v : Option String) (d : String) : String :=
  match v with
  | none => d
  | some s => if s.isEmpty then d else s

/-- Truthiness of an optional string field (`!!x` in JavaScript):
absent and empty strings are falsy. -/
def strTruthy (v : Option String) : Bool :=
  match v with
  | none => false
  | some s => !s.isEmpty

/-! ## JSON values

JavaScript object values, as produced by JSON.parse, with explicit
truthiness.  Arrays and objects are represented by mutually inductive
spine types so that structural recursion and induction stay simple. -/

mutual
inductive Json where
  | null : Json
  | bool (b : Bool) : Json
  | num (q : ℚ) : Json
  | str (s : String) : Json
  | arr (elems : JsonList) : Json
  | obj (fields : JsonFields) : Json
deriving DecidableEq

inductive JsonList where
  | nil : JsonList
  | cons (head : Json) (tail : JsonList) : JsonList
deriving DecidableEq

inductive JsonFields where
  | nil : JsonFields
  | cons (key : String) (val : Json) (tail : JsonFields) : JsonFields
deriving DecidableEq
end

/-- Truthiness of a Json value: null, false, 0 and the empty string are
falsy; every array and object is truthy. -/
def Json.truthy : Json → Bool
  | .null => false
  | .bool b => b
  | .num q => q != 0
  | .str s => !s.isEmpty
  | .arr _ => true
  | .obj _ => true

/-- Property read on an object (`o.k` / `o[k]`): the first field with the
given key, or none when the property is absent (undefined). -/
def JsonFields.lookupField : JsonFields → String → Option Json
  | .nil, _ => none
  | .cons k v t, key => if k = key then some v else t.lookupField key

/-- Truthiness of a property read: an absent property (undefined) is
falsy. -/
def jsonTruthyOpt (v : Option Json) : Bool :=
  match v with
  | none => false
  | some j => j.truthy

/-- Property write (`o.k = v`): replaces the value in place when the key
exists, otherwise appends the new property. -/
def JsonFields.setField : JsonFields → String → Json → JsonFields
  | .nil, key, v => .cons key v .nil
  | .cons k w t, key, v =>
      if k = key then .cons k v t else .cons k w (t.setField key v)

/-- Property delete (`delete o.k`): removes the field with the given
key. -/
def JsonFields.eraseField : JsonFields → String → JsonFields
  | .nil, _ => .nil
  | .cons k w t, key =>
      if k = key then t.eraseField key else .cons k w (t.eraseField key)

mutual
/-- Deep copy of a Json value, as performed by
JSON.parse(JSON.stringify(x)) in chartUtils.ts: every node of the result
is freshly rebuilt, so later in-place edits never reach the original. -/
def Json.deepClone : Json → Json
  | .null => .null
  | .bool b => .bool b
  | .num q => .num q
  | .str s => .str s
  | .arr es => .arr es.deepClone
  | .obj fs => .obj fs.deepClone

def JsonList.deepClone : JsonList → JsonList
  | .nil => .nil
  | .cons h t => .cons h.deepClone t.deepClone

def JsonFields.deepClone : JsonFields → JsonFields
  | .nil => .nil
  | .cons k v t => .cons k v.deepClone t.deepClone
end

mutual
theorem Json.deepClone_id : (j : Json) → j.deepClone = j
  | .null => rfl
  | .bool _ => rfl
  | .num _ => rfl
  | .str _ => rfl
  | .arr es => congrArg Json.arr es.deepCloneList_id
  | .obj fs => congrArg Json.obj fs.deepCloneFields_id

theorem JsonList.deepCloneList_id : (l : JsonList) → l.deepClone = l
  | .nil => rfl
  | .cons h t => by rw [JsonList.deepClone, h.deepClone_id, t.deepCloneList_id]

theorem JsonFields.deepCloneFields_id : (fs : JsonFields) → fs.deepClone = fs
  | .nil => rfl
  | .cons k v t => by rw [JsonFields.deepClone, v.deepClone_id, t.deepCloneFields_id]
end

/-! ## Data model (types.ts) -/

/-- One service-region cost combination (interface ServiceRegionCombo). -/
structure ServiceRegionCombo where
  service : String
  region : String
  cost : ℚ
  currency : String
  period : String
deriving DecidableEq, Repr

/-- One planned analysis step (interface AnalysisStep). -/
structure AnalysisStep where
  title : String
  service : String
  region : String
  useTools : List String
deriving DecidableEq, Repr

/-- The structured planner output (interface PlanningResponse). -/
structure PlanningResponse where
  steps : List AnalysisStep
deriving DecidableEq, Repr

/-- Loaded credentials (interface AWSCredentials); sessionToken and
region are optional fields. -/
structure AWSCredentials where
  accessKeyId : String
  secretAccessKey : String
  sessionToken : Option String
  region : Option String
deriving DecidableEq, Repr

/-- The nested Credentials block of the credentials file
(interface AWSCredentialsFile); every field may be absent in the parsed
JSON, so each is optional here. -/
structure CredsInner where
  AccessKeyId : Option String
  SecretAccessKey : Option String
  SessionToken : Option String
deriving DecidableEq, Repr

/-- The parsed credentials file (interface AWSCredentialsFile). -/
structure AWSCredentialsFile where
  Credentials : Option CredsInner
  region : Option String
deriving DecidableEq, Repr

/-! ## Credential loading (config.ts, loadCredentials)

The filesystem read is abstracted into two inputs: whether the file
exists, and the parsed file contents.  Every thrown error becomes an
Except.error carrying the exact message the code builds; the outer catch
re-wraps any message with the Failed-to-load prefix. -/

/-- Load AWS credentials from the parsed credentials file, mirroring
loadCredentials in config.ts: missing file and missing (or falsy)
AccessKeyId / SecretAccessKey throw; the region defaults to us-east-1
when the region field is absent or falsy. -/
def loadCredentials (fileExists : Bool) (fullPath : String)
    (data : AWSCredentialsFile) : Except String AWSCredentials :=
  let inner : Except String AWSCredentials :=
    if !fileExists then
      .error ("Credentials file not found at " ++ fullPath)
    else if !(strTruthy (data.Credentials.bind (·.AccessKeyId)))
        || !(strTruthy (data.Credentials.bind (·.SecretAccessKey))) then
      .error "Invalid credentials file. Must contain Credentials.AccessKeyId and Credentials.SecretAccessKey"
    else
      let region := jsOr data.region "us-east-1"
      .ok {
        accessKeyId := (data.Credentials.bind (·.AccessKeyId)).getD ""
        secretAccessKey := (data.Credentials.bind (·.SecretAccessKey)).getD ""
        sessionToken := data.Credentials.bind (·.SessionToken)
        region := some region }
  match inner with
  | .ok c => .ok c
  | .error e => .error ("Failed to load AWS credentials: " ++ e)

/-! ## Cost-data fetch and ranking (aws-service.ts)

parseCostData and getTopServiceRegionCombos, from the adapter-module
variant of aws-service.ts (the one the orchestrator imports): the
datapoints array and each dimensions object may be absent; each
dimension key splits on a comma-space into service and region; the value
is coerced to a number with parseFloat-or-zero. -/

/-- A raw cost value in a dimensions object: either a JSON number or a
string, the latter carrying its parseFloat result (none when the parse
yields NaN). -/
inductive CostValue where
  | num (q : ℚ) : CostValue
  | str (parsed : Option ℚ) : CostValue
deriving DecidableEq, Repr

/-- Numeric coercion of a cost value, as in parseCostData:
a number is used as-is, a string goes through parseFloat with a
zero fallback for NaN (the or-zero also maps a parsed 0 to 0). -/
def CostValue.toNumber : CostValue → ℚ
  | .num q => q
  | .str (some q) => q
  | .str none => 0

/-- One datapoint of the cost tool result: an optional dimensions
object (key-cost pairs) and an optional period label. -/
structure CostDatapoint where
  dimensions : Option (List (String × CostValue))
  period : Option String
deriving DecidableEq, Repr

/-- The raw result of the awsCostPerServicePerRegion tool: an optional
datapoints array. -/
structure CostData where
  datapoints : Option (List CostDatapoint)
deriving DecidableEq, Repr

/-- Parse one dimensions entry into a combo, as in parseCostData:
the key splits on comma-space; with two or more parts the first two are
service and region, otherwise the whole key is the service and the
region is unknown. -/
def parseDimensionEntry (period : String) (entry : String × CostValue) :
    ServiceRegionCombo :=
  let parts := entry.1.splitOn ", "
  let sr : String × String :=
    match parts with
    | s :: r :: _ => (s, r)
    | _ => (entry.1, "unknown")
  { service := sr.1
    region := sr.2
    cost := entry.2.toNumber
    currency := "USD"
    period := period }

/-- parseCostData: flatten every datapoint of the raw cost data into
combos, defaulting a missing datapoints array and missing dimensions
objects to empty, and a falsy period to Unknown. -/
def parseCostData (costData : CostData) : List ServiceRegionCombo :=
  match costData.datapoints with
  | none => []
  | some dps =>
      dps.flatMap fun dp =>
        (dp.dimensions.getD []).map
          (parseDimensionEntry (jsOr dp.period "Unknown"))

/-- The descending-cost order used by the sort comparator
(a, b) => b.cost - a.cost. -/
def costGE (a b : ServiceRegionCombo) : Prop := b.cost ≤ a.cost

instance : DecidableRel costGE := fun a b => inferInstanceAs (Decidable (b.cost ≤ a.cost))

instance : IsTotal ServiceRegionCombo costGE := ⟨fun a b => le_total b.cost a.cost⟩

instance : IsTrans ServiceRegionCombo costGE :=
  ⟨fun _ _ _ hab hbc => le_trans hbc hab⟩

/-- getTopServiceRegionCombos: parse the raw cost data, sort by cost in
descending order, and keep the first topN entries.  The sort is modelled
by insertion sort, a sorted stable permutation exactly as the JavaScript
sort contract requires. -/
def getTopServiceRegionCombos (topN : Nat) (costData : CostData) :
    List ServiceRegionCombo :=
  ((parseCostData costData).insertionSort costGE).take topN

/-! ## Planning call (llm.ts, planAnalysis)

The generateObject call is an external model invocation; its outcome
(a structured plan, or a provider/validation error) is an input.  The
code re-throws any error with the Failed-to-plan prefix. -/

/-- planAnalysis: return the structured plan from the model call, or
re-throw its error wrapped in the Failed-to-plan message. -/
def planAnalysis (generated : Except String PlanningResponse) :
    Except String PlanningResponse :=
  match generated with
  | .ok plan => .ok plan
  | .error e => .error ("Failed to plan analysis: " ++ e)

/-! ## Tool-calling loop (llm.ts, analyzeWithTools)

Modelled from the spec: the iterative request, invoke and respond cycle
of the Tool-Calling Loop lives inside the external AI SDK generateText
call and is driven by its maxSteps parameter; the repository code only
builds the prompt, passes the bound tool set, and sets the budget
(maxSteps 99 in the adapter-module variant, 5 in the legacy class).  Per
the spec, each turn of the model either ends with narrative text or
requests further tool invocations, and the loop stops at the first
narrative-only turn or when maxSteps turns have run, returning the text
of the last turn rather than an error. -/

/-- One model turn: either a final narrative turn with no tool requests,
or a turn that requests further tool invocations (carrying whatever text
accompanied the request). -/
inductive ModelTurn where
  | final (text : String) : ModelTurn
  | request (text : String) (calls : List String) : ModelTurn
deriving DecidableEq, Repr

/-- The bounded turn loop of generateText: run at most fuel more turns,
numbering turns from turnIdx, keeping the text of the most recent turn;
stop at a narrative-only turn or when the fuel is exhausted.  Returns
the final text and the number of turns taken overall. -/
def runToolLoop (turnOf : Nat → ModelTurn) :
    Nat → Nat → String → String × Nat
  | 0, turnIdx, lastText => (lastText, turnIdx)
  | fuel + 1, turnIdx, _lastText =>
      match turnOf turnIdx with
      | .final t => (t, turnIdx + 1)
      | .request t _ => runToolLoop turnOf fuel (turnIdx + 1) t
  termination_by fuel => fuel

/-- analyzeWithTools: drive the tool-calling loop with the given model
behaviour and step budget and return the final narrative text. -/
def analyzeWithTools (turnOf : Nat → ModelTurn) (stepBudget : Nat) : String :=
  (runToolLoop turnOf stepBudget 0 "").1

/-! ## Per-tool-call failure shielding (llm.ts, the execute callbacks)

Each AI SDK tool object wraps the aws-tools invoke call in a try block:
the credential lookup and the invocation both sit inside it, and any
thrown error is converted into an error-message object returned as the
tool result, never re-thrown into the loop. -/

/-- The execute callback of a bound tool: read the shared credentials
(which throws when not loaded), invoke the external data source, and on
any error return an object with a single error field carrying the
message. -/
def toolExecute (getCreds : Except String AWSCredentials)
    (invokeTool : AWSCredentials → Except String Json) : Json :=
  match (do
      let creds ← getCreds
      invokeTool creds : Except String Json) with
  | .ok result => result
  | .error msg => .obj (.cons "error" (.str msg) .nil)

/-! ## Chart-spec sanitisation (chartUtils.ts, sanitizeChartSpec)

The function deep-clones the incoming spec, strips the axis format
fields of every encoding channel when they are truthy, and defaults the
mark and encoding fields when they are absent or falsy.  The input is
the field list of a parsed JSON object (extractChartSpec only ever hands
object values to the sanitiser). -/

/-- Strip the axis format fields as the forEach body does: each delete
is guarded by a truthiness test on the property, so falsy values (for
example an empty-string format) survive. -/
def sanitizeAxisFields (afs : JsonFields) : JsonFields :=
  let afs1 :=
    if jsonTruthyOpt (afs.lookupField "format") then afs.eraseField "format" else afs
  if jsonTruthyOpt (afs1.lookupField "formatType") then
    afs1.eraseField "formatType"
  else afs1

/-- Process one encoding channel: the guard is encoding-and-axis
truthiness.  An object channel is always truthy, and when its axis is an
object the guarded deletes run against that axis; when the axis is
absent, falsy, or a non-object (whose format property is undefined, so
neither delete fires), the channel is unchanged, as is any non-object
channel (whose axis property is undefined). -/
def transformChannel (v : Json) : Json :=
  match v with
  | .obj vfs =>
      match vfs.lookupField "axis" with
      | some (.obj afs) => .obj (vfs.setField "axis" (.obj (sanitizeAxisFields afs)))
      | _ => v
  | _ => v

/-- Apply the channel value to every field. -/
def JsonFields.mapVals (f : Json → Json) : JsonFields → JsonFields
  | .nil => .nil
  | .cons k v t => .cons k (f v) (t.mapVals f)

/-- Apply the channel transform to every element. -/
def JsonList.mapElems (f : Json → Json) : JsonList → JsonList
  | .nil => .nil
  | .cons h t => .cons (f h) (t.mapElems f)

/-- Iterate the channels as Object.keys(spec.encoding).forEach does: the
keys of an object are its property names, the keys of an array are its
indices (so every element is processed), and a primitive either has no
keys or, for a string, yields single characters that have no axis
property, so the value is unchanged. -/
def transformEncoding (e : Json) : Json :=
  match e with
  | .obj efs => .obj (efs.mapVals transformChannel)
  | .arr es => .arr (es.mapElems transformChannel)
  | _ => e

/-- First statement block of sanitizeChartSpec: when the encoding
property is truthy, rewrite its channels through the forEach body. -/
def sanitizeEncodingPass (spec : JsonFields) : JsonFields :=
  match spec.lookupField "encoding" with
  | some e => if e.truthy then spec.setField "encoding" (transformEncoding e) else spec
  | none => spec

/-- Second statement block: default a falsy mark property to bar. -/
def defaultMarkPass (spec : JsonFields) : JsonFields :=
  if !(jsonTruthyOpt (spec.lookupField "mark")) then
    spec.setField "mark" (.str "bar")
  else spec

/-- Third statement block: default a falsy encoding property to the
empty object. -/
def defaultEncodingPass (spec : JsonFields) : JsonFields :=
  if !(jsonTruthyOpt (spec.lookupField "encoding")) then
    spec.setField "encoding" (.obj .nil)
  else spec

/-- sanitizeChartSpec: deep-clone the spec, rewrite the channels of a
truthy encoding, then default a falsy mark to bar and a falsy encoding
to the empty object.  All edits are performed on the clone; the pure
result is returned and the original value is untouched. -/
def sanitizeChartSpec (chartSpec : JsonFields) : JsonFields :=
  defaultEncodingPass (defaultMarkPass (sanitizeEncodingPass chartSpec.deepClone))

/-! ## Report paths (report-generator.ts) -/

/-- path.join on two well-formed segments. -/
def pathJoin (a b : String) : String := a ++ "/" ++ b

/-- path.basename: the component after the final separator. -/
def pathBasename (p : String) : String := (p.splitOn "/").getLastD p

/-- The standardized output paths of generateAnalysisPaths. -/
structure AnalysisPaths where
  reportDir : String
  reportPath : String
  executionId : String
  serviceRegion : String
deriving DecidableEq, Repr

/-- generateAnalysisPaths: the per-execution report directory and the
per-step analysis file inside it. -/
def generateAnalysisPaths (baseOutputPath executionId serviceRegion : String) :
    AnalysisPaths :=
  let reportDir := pathJoin baseOutputPath executionId
  { reportDir := reportDir
    reportPath := pathJoin reportDir (serviceRegion ++ "-analysis.md")
    executionId := executionId
    serviceRegion := serviceRegion }

/-- Collapse every maximal whitespace run to a single underscore, as the
service-name sanitisation step.service.replace with pattern whitespace-run
and replacement underscore does. -/
def collapseWsRuns : Bool → List Char → List Char
  | _, [] => []
  | prevWs, c :: rest =>
      if c.isWhitespace then
        (if prevWs then [] else ['_']) ++ collapseWsRuns true rest
      else c :: collapseWsRuns false rest

/-- The sanitised service name used in the per-step file name. -/
def replaceWsRuns (s : String) : String := ⟨collapseWsRuns false s.data⟩

/-! ## Run orchestrator (analyzer.ts)

analyze drives fetch, planning, the per-step loop and compilation.  The
external outcomes (cost fetch, planner call, per-step execution,
synthesis call, wall clock) are inputs collected in AnalyzeEnv; the
returned AnalyzeOutcome additionally records the artifact paths written
and the number of steps whose execution was started, so that abort
behaviour is observable. -/

/-- JavaScript String.prototype.includes as a substring test on the
character data. -/
def includesStr (s pat : String) : Bool := decide (List.IsInfix pat.data s.data)

/-- Match one line against the title pattern (hash, one or more
whitespace characters, then a non-empty remainder captured up to the
line end).  The dot also matches whitespace, so on a line whose
remainder is entirely whitespace of length at least two the greedy
whitespace run backtracks and the capture is the final character. -/
def titleMatchLine (l : String) : Option String :=
  match l.data with
  | '#' :: c :: rest =>
      if c.isWhitespace then
        let t := (c :: rest).dropWhile Char.isWhitespace
        if t.isEmpty then some ⟨[(c :: rest).getLast (List.cons_ne_nil c rest)]⟩
        else some ⟨t⟩
      else none
  | _ => none

/-- The multiline title match of createFallbackReport: the first line of
the content matching the title pattern, with the given default when no
line matches. -/
def extractTitle (content : String) (deflt : String) : String :=
  ((content.splitOn "\n").findSome? titleMatchLine).getD deflt

/-- validateTools: collect the requested names absent from the catalog
and, when any exist, throw the message that lists them followed by the
full catalog. -/
def validateTools (availableTools requestedTools : List String) :
    Except String Unit :=
  let invalidTools := requestedTools.filter (fun t => !(availableTools.contains t))
  if 0 < invalidTools.length then
    .error ("Invalid tools provided: " ++ String.intercalate ", " invalidTools
      ++ "\n\nAvailable tools:\n"
      ++ String.intercalate "\n" (availableTools.map (fun t => "  - " ++ t)))
  else .ok ()

/-- Observable outcome of one executeAnalysisStep call: its result and
how many tool sets were built (createTools runs only after validation
passes, so a validation error leaves the count at zero). -/
structure StepOutcome where
  result : Except String String
  toolSetsCreated : Nat

/-- executeAnalysisStep: validate the requested tools against the
catalog and, only if that passes, build the tool set and run the LLM
loop; the combined outcome of tool construction and the loop is the
abstract loopOutcome input. -/
def executeAnalysisStep (availableTools : List String) (step : AnalysisStep)
    (loopOutcome : Except String String) : StepOutcome :=
  match validateTools availableTools step.useTools with
  | .error e => { result := .error e, toolSetsCreated := 0 }
  | .ok _ => { result := loopOutcome, toolSetsCreated := 1 }

/-- The failure narrative substituted for a step whose execution threw. -/
def failureNarrative (e : String) : String :=
  "# Analysis Failed\n\nStep failed: " ++ e

/-- The content recorded for one step: the analysis markdown on
success, the failure narrative on error. -/
def stepNarrative (outcome : Except String String) : String :=
  match outcome with
  | .ok r => r
  | .error e => failureNarrative e

/-- The per-step report path: sanitised service name, dash, region,
under the execution directory. -/
def stepReportPath (outputDir executionId : String) (step : AnalysisStep) :
    String :=
  (generateAnalysisPaths outputDir executionId
    (replaceWsRuns step.service ++ "-" ++ step.region)).reportPath

/-- The step loop of analyze: one result tuple per planned step, in plan
order; a step whose execution throws contributes the failure narrative
and the loop continues with the remaining steps.  The index numbers the
steps from the given start. -/
def analyzeSteps (execStep : Nat → AnalysisStep → Except String String)
    (outputDir executionId : String) :
    Nat → List AnalysisStep → List (String × String)
  | _, [] => []
  | i, step :: rest =>
      (stepReportPath outputDir executionId step,
        stepNarrative (execStep i step)) ::
        analyzeSteps execStep outputDir executionId (i + 1) rest

/-- One section of the fallback report: the extracted title, the
success or failure status, and the relative link to the individual
report file. -/
def fallbackSection (entry : String × String) : String :=
  let relativePath := pathBasename entry.1
  let title := extractTitle entry.2 "Analysis Report"
  let isSuccessful := !(includesStr entry.2 "Analysis Failed")
  "### " ++ title ++ "\n- **Status**: " ++
    (if isSuccessful then "✅ Completed" else "❌ Failed") ++
    "\n- **Detailed Report**: [" ++ title ++ "](./" ++ relativePath ++ ")\n\n"

/-- createFallbackReport: the deterministic template assembled without
the model, a header with counts followed by one section per step result
and a closing summary. -/
def createFallbackReport (results : List (String × String))
    (executionId now : String) : String :=
  let successfulCount :=
    (results.filter (fun r => !(includesStr r.2 "Analysis Failed"))).length
  let header := "# AWS Cost Analysis Comprehensive Report\n\n**Execution ID**: "
    ++ executionId
    ++ "\n**Generated**: " ++ now
    ++ "\n**Total Analyses**: " ++ toString results.length
    ++ "\n**Successful Analyses**: " ++ toString successfulCount
    ++ "\n\n## Executive Summary\n\nThis comprehensive report analyzes "
    ++ toString results.length
    ++ " AWS service-region combinations to identify cost patterns, optimization opportunities, and strategic recommendations for your cloud infrastructure.\n\n## Individual Service Analyses\n\n"
  let body := results.foldl (fun acc r => acc ++ fallbackSection r) header
  body ++ "\n## Summary\n\nFor detailed analysis of each service, please refer to the individual reports linked above. Each report contains specific cost patterns, optimization recommendations, and actionable insights for that particular service-region combination.\n\n---\n*Report generated by AWS Cost Analyzer CLI*\n"

/-- compileComprehensiveReport: return the synthesis text from the
model call, or fall back to the deterministic template when that call
fails. -/
def compileComprehensiveReport (synthesized : Except String String)
    (results : List (String × String)) (executionId now : String) : String :=
  match synthesized with
  | .ok text => text
  | .error _ => createFallbackReport results executionId now

/-- External outcomes consumed by one analyze run: the (already
wrapped) result of getTopServiceRegionCombos, the raw outcome of the
planner model call, the outcome of executeAnalysisStep per step index,
the outcome of the synthesis model call, and the timestamp. -/
structure AnalyzeEnv where
  fetched : Except String (List ServiceRegionCombo)
  planned : Except String PlanningResponse
  execStep : Nat → AnalysisStep → Except String String
  synthesized : Except String String
  now : String

/-- Observable outcome of one analyze run: the returned value or
thrown error, the artifact paths written, and the number of steps whose
execution started. -/
structure AnalyzeOutcome where
  result : Except String (List (String × String))
  writes : List String
  stepsExecuted : Nat

/-- analyze: fetch the ranked combos (an empty list returns the empty
result immediately), plan (a planning failure aborts the run before any
step, wrapped by the outer catch), run every planned step collecting one
result per step, compile the comprehensive report (falling back on
synthesis failure), and write the per-step reports plus report.md. -/
def analyze (env : AnalyzeEnv) (outputDir executionId : String) :
    AnalyzeOutcome :=
  match env.fetched with
  | .error e =>
      { result := .error ("Analysis failed: " ++ e), writes := [], stepsExecuted := 0 }
  | .ok combos =>
      if combos.length = 0 then
        { result := .ok [], writes := [], stepsExecuted := 0 }
      else
        match planAnalysis env.planned with
        | .error e =>
            { result := .error ("Analysis failed: " ++ e), writes := [],
              stepsExecuted := 0 }
        | .ok plan =>
            let results := analyzeSteps env.execStep outputDir executionId 0 plan.steps
            let compiledPath := pathJoin (pathJoin outputDir executionId) "report.md"
            { result := .ok results
              writes := results.map Prod.fst ++ [compiledPath]
              stepsExecuted := plan.steps.length }

/-! ## Helper lemmas -/

theorem runToolLoop_turns_le (turnOf : Nat → ModelTurn) :
    ∀ (fuel turnIdx : Nat) (lastText : String),
      (runToolLoop turnOf fuel turnIdx lastText).2 ≤ turnIdx + fuel := by
  intro fuel
  induction fuel with
  | zero => intro turnIdx lastText; simp [runToolLoop]
  | succ n ih =>
      intro turnIdx lastText
      rw [runToolLoop]
      cases turnOf turnIdx with
      | final t => simp
      | request t calls =>
          have := ih (turnIdx + 1) t
          simpa [Nat.add_assoc, Nat.add_comm 1 n] using this

theorem runToolLoop_all_requests (turnOf : Nat → ModelTurn)
    (txt : Nat → String) (calls : Nat → List String)
    (h : ∀ n, turnOf n = .request (txt n) (calls n)) :
    ∀ (fuel turnIdx : Nat) (lastText : String), 0 < fuel →
      runToolLoop turnOf fuel turnIdx lastText
        = (txt (turnIdx + fuel - 1), turnIdx + fuel) := by
  intro fuel
  induction fuel with
  | zero => intro _ _ hpos; omega
  | succ n ih =>
      intro turnIdx lastText _
      rw [runToolLoop, h turnIdx]
      dsimp only
      cases Nat.eq_zero_or_pos n with
      | inl hz => subst hz; rw [runToolLoop]; simp
      | inr hpos =>
          rw [ih (turnIdx + 1) (txt turnIdx) hpos]
          have h1 : turnIdx + 1 + n - 1 = turnIdx + (n + 1) - 1 := by omega
          have h2 : turnIdx + 1 + n = turnIdx + (n + 1) := by omega
          rw [h1, h2]

/-! ## Claims about the tool-calling loop -/

/-- C3: for every model behaviour the tool-calling loop performs at most
stepBudget turns, and when the model requests another tool invocation on
every turn the loop stops after exactly stepBudget turns and
analyzeWithTools returns the narrative text of the final turn rather
than an error. -/
theorem c3_tool_loop_bounded (turnOf : Nat → ModelTurn) (stepBudget : Nat)
    (txt : Nat → String) (calls : Nat → List String) :
    (runToolLoop turnOf stepBudget 0 "").2 ≤ stepBudget
    ∧ ((∀ n, turnOf n = .request (txt n) (calls n)) → 0 < stepBudget →
        analyzeWithTools turnOf stepBudget = txt (stepBudget - 1)
        ∧ (runToolLoop turnOf stepBudget 0 "").2 = stepBudget) := by
  constructor
  · simpa using runToolLoop_turns_le turnOf stepBudget 0 ""
  · intro hall hpos
    have h := runToolLoop_all_requests turnOf txt calls hall stepBudget 0 "" hpos
    constructor
    · rw [analyzeWithTools, h]; simp
    · rw [h]; simp

/-- Witness for C3 at a model that always requests another tool call
and a budget of three turns. -/
theorem c3_tool_loop_bounded_witness :
    analyzeWithTools (fun _ => .request "partial text" ["awsGetCostAndUsage"]) 3
      = "partial text"
    ∧ (runToolLoop (fun _ => .request "partial text" ["awsGetCostAndUsage"]) 3 0 "").2 = 3 :=
  (c3_tool_loop_bounded (fun _ => .request "partial text" ["awsGetCostAndUsage"]) 3
    (fun _ => "partial text") (fun _ => ["awsGetCostAndUsage"])).2
    (fun _ => rfl) (by decide)

/-! ## Claims about tool validation -/

/-- C2: requesting any capability name absent from the catalog makes
validateTools throw the message listing exactly the invalid names
followed by the full catalog, and executeAnalysisStep then builds no
tool set; when every requested name is in the catalog, validateTools
returns without error. -/
theorem c2_validateTools_exact_error (availableTools requestedTools : List String) :
    ((∃ t ∈ requestedTools, t ∉ availableTools) →
      validateTools availableTools requestedTools =
        .error ("Invalid tools provided: "
          ++ String.intercalate ", "
              (requestedTools.filter (fun t => !(availableTools.contains t)))
          ++ "\n\nAvailable tools:\n"
          ++ String.intercalate "\n" (availableTools.map (fun t => "  - " ++ t)))
      ∧ (∀ t, t ∈ requestedTools.filter (fun t => !(availableTools.contains t))
            ↔ t ∈ requestedTools ∧ t ∉ availableTools)
      ∧ (∀ (step : AnalysisStep) (loopOutcome : Except String String),
          step.useTools = requestedTools →
          (executeAnalysisStep availableTools step loopOutcome).toolSetsCreated = 0))
    ∧ ((∀ t ∈ requestedTools, t ∈ availableTools) →
        validateTools availableTools requestedTools = .ok ()) := by
  constructor
  · intro h
    obtain ⟨t, ht, hnt⟩ := h
    have hmem : t ∈ requestedTools.filter (fun t => !(availableTools.contains t)) := by
      simp [List.mem_filter, ht, hnt]
    have hpos : 0 < (requestedTools.filter (fun t => !(availableTools.contains t))).length :=
      List.length_pos.mpr (List.ne_nil_of_mem hmem)
    refine ⟨?_, ?_, ?_⟩
    · rw [validateTools]
      simp only [hpos, if_pos]
    · intro t'; simp [List.mem_filter]
    · intro step loopOutcome hsteps
      rw [executeAnalysisStep, hsteps, validateTools]
      simp only [hpos, if_pos]
  · intro h
    have hnil : requestedTools.filter (fun t => !(availableTools.contains t)) = [] := by
      rw [List.filter_eq_nil_iff]
      intro t ht
      simpa using h t ht
    rw [validateTools, hnil]
    simp

/-- Witness for C2: a catalog of two tools, one invalid request and one
fully valid request. -/
theorem c2_validateTools_exact_error_witness :
    validateTools ["awsGetCostAndUsage", "awsCloudWatchGetMetrics"] ["toolZ"] =
      .error ("Invalid tools provided: "
        ++ String.intercalate ", "
            (["toolZ"].filter
              (fun t => !((["awsGetCostAndUsage", "awsCloudWatchGetMetrics"] : List String).contains t)))
        ++ "\n\nAvailable tools:\n"
        ++ String.intercalate "\n"
            ((["awsGetCostAndUsage", "awsCloudWatchGetMetrics"] : List String).map
              (fun t => "  - " ++ t)))
    ∧ validateTools ["awsGetCostAndUsage", "awsCloudWatchGetMetrics"]
        ["awsGetCostAndUsage"] = .ok () :=
  ⟨((c2_validateTools_exact_error ["awsGetCostAndUsage", "awsCloudWatchGetMetrics"]
      ["toolZ"]).1 (by decide)).1,
    (c2_validateTools_exact_error ["awsGetCostAndUsage", "awsCloudWatchGetMetrics"]
      ["awsGetCostAndUsage"]).2 (by decide)⟩

/-! ## Claims about planning failure and the empty-subjects run -/

/-- C4: when the planner model call fails, analyze aborts with the
error naming the planning failure, executes zero steps and writes zero
artifacts. -/
theorem c4_planning_failure_aborts (env : AnalyzeEnv)
    (outputDir executionId : String)
    (combos : List ServiceRegionCombo) (err : String)
    (h1 : env.fetched = .ok combos) (h2 : combos ≠ [])
    (h3 : env.planned = .error err) :
    (analyze env outputDir executionId).result =
      .error ("Analysis failed: Failed to plan analysis: " ++ err)
    ∧ (analyze env outputDir executionId).writes = []
    ∧ (analyze env outputDir executionId).stepsExecuted = 0 := by
  have hlen : ¬combos.length = 0 := by
    simpa [List.length_eq_zero] using h2
  rw [analyze, h1]
  simp only [hlen, if_neg, planAnalysis, h3]
  exact ⟨rfl, rfl, rfl⟩

/-- The single ranked combo used by the witness environments. -/
def s3Combo : ServiceRegionCombo :=
  ⟨"Amazon S3", "us-east-1", 500, "USD", "2024-01"⟩

/-- Witness environment for C4: one ranked combo and a failing planner
call. -/
def c4Env : AnalyzeEnv :=
  ⟨.ok [s3Combo], .error "provider unavailable",
    fun _ _ => .ok "unreached", .ok "unreached", "2024-01-31"⟩

/-- Witness for C4 at the concrete failing-planner environment. -/
theorem c4_planning_failure_aborts_witness :
    (analyze c4Env "./output" "01HX").result =
      .error ("Analysis failed: Failed to plan analysis: " ++ "provider unavailable")
    ∧ (analyze c4Env "./output" "01HX").writes = []
    ∧ (analyze c4Env "./output" "01HX").stepsExecuted = 0 :=
  c4_planning_failure_aborts c4Env "./output" "01HX" [s3Combo] "provider unavailable"
    rfl (by simp) rfl

/-- Environment for C7: the subjects fetch returns an empty ranked
list. -/
def c7Env : AnalyzeEnv :=
  ⟨.ok [], .error "unreached", fun _ _ => .error "unreached",
    .error "unreached", "2024-01-31"⟩

/-- C7 counterexample: with an empty ranked-subject list, analyze
returns normally with the empty result, but the write log is empty, so
no report file of any kind is produced for the user — refuting the part
of the claim that says the run still yields a report. -/
theorem c7_no_report_on_empty_counterexample :
    (analyze c7Env "./output" "01HX").result = .ok []
    ∧ (analyze c7Env "./output" "01HX").writes = [] :=
  ⟨rfl, rfl⟩

/-- C7 amended: an empty ranked-subject list is a valid terminal
outcome — analyze returns normally with the empty result list and no
exception — but the run stops immediately: no step executes and no
report file is written. -/
theorem c7_empty_subjects_returns_empty (env : AnalyzeEnv)
    (outputDir executionId : String) (h : env.fetched = .ok []) :
    (analyze env outputDir executionId).result = .ok []
    ∧ (analyze env outputDir executionId).writes = []
    ∧ (analyze env outputDir executionId).stepsExecuted = 0 := by
  rw [analyze, h]
  exact ⟨rfl, rfl, rfl⟩

/-- Witness for C7 at the concrete empty-fetch environment. -/
theorem c7_empty_subjects_returns_empty_witness :
    (analyze c7Env "./out2" "01HY").result = .ok []
    ∧ (analyze c7Env "./out2" "01HY").writes = []
    ∧ (analyze c7Env "./out2" "01HY").stepsExecuted = 0 :=
  c7_empty_subjects_returns_empty c7Env "./out2" "01HY" rfl

/-! ## Claims about per-tool-call failure shielding -/

/-- C6: the execute callback of a bound tool converts every failure of
the external data-source call (and of the shared-credential lookup) into
an error-message payload returned as an ordinary tool result, and passes
a successful result through unchanged; it never re-throws into the
tool-calling loop. -/
theorem c6_tool_execute_shields_failures
    (getCreds : Except String AWSCredentials)
    (invokeTool : AWSCredentials → Except String Json) :
    (∀ msg, getCreds = .error msg →
      toolExecute getCreds invokeTool = .obj (.cons "error" (.str msg) .nil))
    ∧ (∀ creds, getCreds = .ok creds →
        (∀ msg, invokeTool creds = .error msg →
          toolExecute getCreds invokeTool = .obj (.cons "error" (.str msg) .nil))
        ∧ (∀ result, invokeTool creds = .ok result →
            toolExecute getCreds invokeTool = result)) := by
  constructor
  · intro msg hmsg
    rw [toolExecute]
    simp [hmsg, Bind.bind, Except.bind]
  · intro creds hcreds
    constructor
    · intro msg hmsg
      rw [toolExecute]
      simp [hcreds, hmsg, Bind.bind, Except.bind]
    · intro result hres
      rw [toolExecute]
      simp [hcreds, hres, Bind.bind, Except.bind]

/-- Witness for C6: loaded credentials and a data-source call that
throws an access-denied error become an error payload, and a successful
call passes through. -/
theorem c6_tool_execute_shields_failures_witness :
    toolExecute (.ok ⟨"AK", "SK", none, some "us-east-1"⟩)
      (fun _ => .error "AccessDenied") = .obj (.cons "error" (.str "AccessDenied") .nil)
    ∧ toolExecute (.ok ⟨"AK", "SK", none, some "us-east-1"⟩)
      (fun _ => .ok (.str "datapoints")) = .str "datapoints" :=
  ⟨((c6_tool_execute_shields_failures _ _).2 _ rfl).1 "AccessDenied" rfl,
    ((c6_tool_execute_shields_failures _ _).2 _ rfl).2 (.str "datapoints") rfl⟩

/-! ## Claims about the step loop -/

theorem analyzeSteps_length (execStep : Nat → AnalysisStep → Except String String)
    (outputDir executionId : String) :
    ∀ (steps : List AnalysisStep) (i : Nat),
      (analyzeSteps execStep outputDir executionId i steps).length = steps.length := by
  intro steps
  induction steps with
  | nil => intro i; rfl
  | cons s rest ih =>
      intro i
      rw [analyzeSteps]
      simp [ih (i + 1)]

theorem analyzeSteps_getElem (execStep : Nat → AnalysisStep → Except String String)
    (outputDir executionId : String) :
    ∀ (steps : List AnalysisStep) (i j : Nat),
      (analyzeSteps execStep outputDir executionId i steps)[j]? =
        (steps[j]?).map (fun step =>
          (stepReportPath outputDir executionId step,
            stepNarrative (execStep (i + j) step))) := by
  intro steps
  induction steps with
  | nil => intro i j; simp [analyzeSteps]
  | cons s rest ih =>
      intro i j
      rw [analyzeSteps]
      cases j with
      | zero => simp
      | succ k =>
          simp only [List.getElem?_cons_succ]
          rw [ih (i + 1) k]
          have harith : i + 1 + k = i + (k + 1) := by omega
          rw [harith]

/-- C1: once the run reaches the step phase, analyze produces exactly
one step result per planned step, in plan order; a step whose execution
throws contributes the failure-marker narrative instead of being
dropped, and every other step still contributes its own result. -/
theorem c1_one_result_per_planned_step (env : AnalyzeEnv)
    (outputDir executionId : String)
    (combos : List ServiceRegionCombo) (plan : PlanningResponse)
    (h1 : env.fetched = .ok combos) (h2 : combos ≠ [])
    (h3 : env.planned = .ok plan) :
    ∃ results,
      (analyze env outputDir executionId).result = .ok results
      ∧ results.length = plan.steps.length
      ∧ (∀ i step, plan.steps[i]? = some step →
          results[i]? = some (stepReportPath outputDir executionId step,
            stepNarrative (env.execStep i step))
          ∧ ∀ er, env.execStep i step = .error er →
              results[i]? = some (stepReportPath outputDir executionId step,
                failureNarrative er)) := by
  have hlen : ¬combos.length = 0 := by
    simpa [List.length_eq_zero] using h2
  refine ⟨analyzeSteps env.execStep outputDir executionId 0 plan.steps, ?_, ?_, ?_⟩
  · rw [analyze, h1]
    simp only [hlen, if_neg, planAnalysis, h3]
    rfl
  · exact analyzeSteps_length env.execStep outputDir executionId plan.steps 0
  · intro i step hstep
    have hget := analyzeSteps_getElem env.execStep outputDir executionId plan.steps 0 i
    rw [hstep] at hget
    simp only [Option.map_some', Nat.zero_add] at hget
    refine ⟨hget, ?_⟩
    intro er her
    rw [hget, her]
    rfl

/-- Witness plan for C1: two steps, the second of which throws. -/
def c1Plan : PlanningResponse :=
  ⟨[⟨"S3 storage analysis", "Amazon S3", "us-east-1", ["awsGetCostAndUsage"]⟩,
    ⟨"EC2 compute analysis", "Amazon EC2", "eu-west-1", ["awsGetCostAndUsage"]⟩]⟩

/-- Witness environment for C1: the first step succeeds, the second
throws. -/
def c1Env : AnalyzeEnv :=
  ⟨.ok [s3Combo], .ok c1Plan,
    fun i _ => if i = 1 then .error "TimeoutError" else .ok "# S3 report",
    .ok "synthesis", "2024-01-31"⟩

/-- Witness for C1 at the concrete two-step environment. -/
theorem c1_one_result_per_planned_step_witness :
    ∃ results,
      (analyze c1Env "./output" "01HX").result = .ok results
      ∧ results.length = c1Plan.steps.length
      ∧ (∀ i step, c1Plan.steps[i]? = some step →
          results[i]? = some (stepReportPath "./output" "01HX" step,
            stepNarrative (c1Env.execStep i step))
          ∧ ∀ er, c1Env.execStep i step = .error er →
              results[i]? = some (stepReportPath "./output" "01HX" step,
                failureNarrative er)) :=
  c1_one_result_per_planned_step c1Env "./output" "01HX" [s3Combo] c1Plan
    rfl (by simp) rfl

/-! ## Claims about the ranked-combo fetch -/

/-- C8: for every parsed cost dataset and every topN, the top
service-region combinations are sorted in descending cost order, number
at most topN, and when the budget covers the whole parsed list the
result is a permutation of it — duplicate combinations are neither
dropped nor merged. -/
theorem c8_top_combos_sorted_bounded (topN : Nat) (costData : CostData) :
    (getTopServiceRegionCombos topN costData).Sorted costGE
    ∧ (getTopServiceRegionCombos topN costData).length ≤ topN
    ∧ ((parseCostData costData).length ≤ topN →
        (getTopServiceRegionCombos topN costData).Perm (parseCostData costData)) := by
  refine ⟨?_, ?_, ?_⟩
  · exact (List.sorted_insertionSort costGE (parseCostData costData)).sublist
      (List.take_sublist _ _)
  · exact List.length_take_le _ _
  · intro hle
    have hperm := List.perm_insertionSort costGE (parseCostData costData)
    have hlen : ((parseCostData costData).insertionSort costGE).length ≤ topN := by
      rw [hperm.length_eq]; exact hle
    rw [getTopServiceRegionCombos, List.take_of_length_le hlen]
    exact hperm

/-- Witness dataset for C8, containing a duplicated service-region
combination. -/
def c8Data : CostData :=
  ⟨some [⟨some [("AWS Lambda, us-east-1", .num 5),
                ("Amazon S3, us-west-2", .num 9),
                ("AWS Lambda, us-east-1", .num 5)], some "2024-01"⟩]⟩

/-- Witness for C8 at the duplicate-bearing dataset with topN three. -/
theorem c8_top_combos_sorted_bounded_witness :
    (getTopServiceRegionCombos 3 c8Data).Sorted costGE
    ∧ (getTopServiceRegionCombos 3 c8Data).length ≤ 3
    ∧ (getTopServiceRegionCombos 3 c8Data).Perm (parseCostData c8Data) :=
  ⟨(c8_top_combos_sorted_bounded 3 c8Data).1,
    (c8_top_combos_sorted_bounded 3 c8Data).2.1,
    (c8_top_combos_sorted_bounded 3 c8Data).2.2 (by decide)⟩

/-! ## Claims about report compilation -/

theorem foldl_append_extends {α : Type} (f : α → String) :
    ∀ (l : List α) (acc : String),
      ∃ u, l.foldl (fun a x => a ++ f x) acc = acc ++ u := by
  intro l
  induction l with
  | nil => intro acc; exact ⟨"", by simp⟩
  | cons h t ih =>
      intro acc
      obtain ⟨u, hu⟩ := ih (acc ++ f h)
      exact ⟨f h ++ u, by rw [List.foldl_cons, hu, String.append_assoc]⟩

theorem foldl_append_decomp {α : Type} (f : α → String) :
    ∀ (l : List α) (acc : String) (x : α), x ∈ l →
      ∃ s t, l.foldl (fun a y => a ++ f y) acc = s ++ f x ++ t := by
  intro l
  induction l with
  | nil => intro acc x hx; cases hx
  | cons h tl ih =>
      intro acc x hx
      rcases List.mem_cons.mp hx with rfl | hx
      · obtain ⟨u, hu⟩ := foldl_append_extends f tl (acc ++ f x)
        exact ⟨acc, u, by rw [List.foldl_cons, hu]⟩
      · obtain ⟨s, t, hst⟩ := ih (acc ++ f h) x hx
        exact ⟨s, t, by rw [List.foldl_cons, hst]⟩

/-- C5: when the synthesis model call fails, the compiled report equals
the deterministic fallback template, which carries one section (title,
success or failure status, and relative report link) for every step
result; and once the step phase is reached the run always returns
normally and always writes the comprehensive report file, whatever the
synthesis outcome. -/
theorem c5_compile_failure_fallback (synthErr : String)
    (results : List (String × String)) (executionId now : String) :
    compileComprehensiveReport (.error synthErr) results executionId now
      = createFallbackReport results executionId now
    ∧ (∀ entry ∈ results, ∃ s t,
        createFallbackReport results executionId now
          = s ++ fallbackSection entry ++ t)
    ∧ (∀ (env : AnalyzeEnv) (outputDir execId : String)
          (combos : List ServiceRegionCombo) (plan : PlanningResponse),
        env.fetched = .ok combos → combos ≠ [] → env.planned = .ok plan →
        (∃ rs, (analyze env outputDir execId).result = .ok rs)
        ∧ pathJoin (pathJoin outputDir execId) "report.md"
            ∈ (analyze env outputDir execId).writes) := by
  refine ⟨rfl, ?_, ?_⟩
  · intro entry hentry
    obtain ⟨s, t, hst⟩ := foldl_append_decomp fallbackSection results _ entry hentry
    refine ⟨s, t ++ ("\n## Summary\n\nFor detailed analysis of each service, please refer to the individual reports linked above. Each report contains specific cost patterns, optimization recommendations, and actionable insights for that particular service-region combination.\n\n---\n*Report generated by AWS Cost Analyzer CLI*\n"), ?_⟩
    rw [createFallbackReport]
    rw [hst, String.append_assoc, String.append_assoc]
  · intro env outputDir execId combos plan h1 h2 h3
    have hlen : ¬combos.length = 0 := by
      simpa [List.length_eq_zero] using h2
    constructor
    · refine ⟨analyzeSteps env.execStep outputDir execId 0 plan.steps, ?_⟩
      rw [analyze, h1]
      simp only [hlen, if_neg, planAnalysis, h3]
      rfl
    · rw [analyze, h1]
      simp only [hlen, if_neg, planAnalysis, h3]
      simp

/-- Witness for C5: a two-entry result list with one failed step. -/
theorem c5_compile_failure_fallback_witness :
    compileComprehensiveReport (.error "model unavailable")
        [("./output/01HX/Amazon_S3-us-east-1-analysis.md", "# S3 report"),
          ("./output/01HX/EC2-eu-west-1-analysis.md",
            "# Analysis Failed\n\nStep failed: boom")] "01HX" "2024-01-31"
      = createFallbackReport
          [("./output/01HX/Amazon_S3-us-east-1-analysis.md", "# S3 report"),
            ("./output/01HX/EC2-eu-west-1-analysis.md",
              "# Analysis Failed\n\nStep failed: boom")] "01HX" "2024-01-31"
    ∧ ∃ s t, createFallbackReport
          [("./output/01HX/Amazon_S3-us-east-1-analysis.md", "# S3 report"),
            ("./output/01HX/EC2-eu-west-1-analysis.md",
              "# Analysis Failed\n\nStep failed: boom")] "01HX" "2024-01-31"
        = s ++ fallbackSection ("./output/01HX/EC2-eu-west-1-analysis.md",
            "# Analysis Failed\n\nStep failed: boom") ++ t :=
  ⟨(c5_compile_failure_fallback "model unavailable" _ "01HX" "2024-01-31").1,
    (c5_compile_failure_fallback "model unavailable" _ "01HX" "2024-01-31").2.1
      _ (by simp)⟩

/-! ## Claims about credential loading -/

/-- C10 counterexample file: both required keys present and a region
field that is present but empty. -/
def c10File : AWSCredentialsFile :=
  ⟨some ⟨some "AKIAEXAMPLE", some "secretKey", none⟩, some ""⟩

/-- C10 counterexample: the file carries both required keys and a
present region, yet loadCredentials returns the default region instead
of the region of the file — refuting the claim that the returned region
is the region of the file whenever one is present. -/
theorem c10_region_default_counterexample :
    loadCredentials true "/creds" c10File
      = .ok ⟨"AKIAEXAMPLE", "secretKey", none, some "us-east-1"⟩
    ∧ c10File.region = some ""
    ∧ (some "" : Option String) ≠ some "us-east-1" :=
  ⟨rfl, rfl, by decide⟩

/-- C10 amended: every accepted credentials file yields a defined
region — the region of the file when that field is present and
non-empty, otherwise us-east-1 — and acceptance requires both required
keys to be present and non-empty; a file missing (or carrying an empty)
required key is rejected with the invalid-credentials error rather than
returning partial credentials. -/
theorem c10_load_credentials_region (fileExists : Bool) (fullPath : String)
    (data : AWSCredentialsFile) :
    (∀ creds, loadCredentials fileExists fullPath data = .ok creds →
        creds.region = some (jsOr data.region "us-east-1")
        ∧ strTruthy (data.Credentials.bind (·.AccessKeyId)) = true
        ∧ strTruthy (data.Credentials.bind (·.SecretAccessKey)) = true)
    ∧ (fileExists = true →
        (strTruthy (data.Credentials.bind (·.AccessKeyId)) = false
          ∨ strTruthy (data.Credentials.bind (·.SecretAccessKey)) = false) →
        loadCredentials fileExists fullPath data =
          .error "Failed to load AWS credentials: Invalid credentials file. Must contain Credentials.AccessKeyId and Credentials.SecretAccessKey") := by
  constructor
  · intro creds h
    by_cases hf : fileExists
    · by_cases hA : strTruthy (data.Credentials.bind (·.AccessKeyId))
      · by_cases hS : strTruthy (data.Credentials.bind (·.SecretAccessKey))
        · rw [loadCredentials] at h
          simp only [hf, hA, hS, Bool.not_true, Bool.false_or, Bool.or_false,
            if_neg, Bool.false_eq_true, not_false_iff, reduceIte] at h
          cases h
          exact ⟨rfl, hA, hS⟩
        · rw [loadCredentials] at h
          simp [hf, hA, hS] at h
      · rw [loadCredentials] at h
        simp [hf, hA] at h
    · rw [loadCredentials] at h
      simp [hf] at h
  · intro hf hor
    rw [loadCredentials]
    rcases hor with h | h
    · simp [hf, h]
    · simp [hf, h]

/-- Witness for C10: an accepted file with a non-empty region keeps the
region of the file, and a file with a missing AccessKeyId is
rejected. -/
theorem c10_load_credentials_region_witness :
    ((⟨"AK", "SK", none, some "eu-west-1"⟩ : AWSCredentials).region
        = some (jsOr (some "eu-west-1") "us-east-1")
      ∧ strTruthy ((some (⟨some "AK", some "SK", none⟩ : CredsInner)).bind (·.AccessKeyId)) = true
      ∧ strTruthy ((some (⟨some "AK", some "SK", none⟩ : CredsInner)).bind (·.SecretAccessKey)) = true)
    ∧ loadCredentials true "/creds"
        ⟨some ⟨none, some "SK", none⟩, none⟩ =
        .error "Failed to load AWS credentials: Invalid credentials file. Must contain Credentials.AccessKeyId and Credentials.SecretAccessKey" :=
  ⟨(c10_load_credentials_region true "/creds"
      ⟨some ⟨some "AK", some "SK", none⟩, some "eu-west-1"⟩).1
      ⟨"AK", "SK", none, some "eu-west-1"⟩ rfl,
    (c10_load_credentials_region true "/creds"
      ⟨some ⟨none, some "SK", none⟩, none⟩).2 rfl (Or.inl rfl)⟩

/-! ## Claims about chart-spec sanitisation -/

theorem lookupField_setField_self :
    (fs : JsonFields) → ∀ (k : String) (v : Json),
      (fs.setField k v).lookupField k = some v
  | .nil => by
      intro k v
      simp [JsonFields.setField, JsonFields.lookupField]
  | .cons key val t => by
      intro k v
      by_cases h : key = k
      · simp [JsonFields.setField, JsonFields.lookupField, h]
      · simp [JsonFields.setField, JsonFields.lookupField, h,
          lookupField_setField_self t k v]

theorem lookupField_setField_ne :
    (fs : JsonFields) → ∀ (k k2 : String) (v : Json), k ≠ k2 →
      (fs.setField k2 v).lookupField k = fs.lookupField k
  | .nil => by
      intro k k2 v h
      simp [JsonFields.setField, JsonFields.lookupField, Ne.symm h]
  | .cons key val t => by
      intro k k2 v h
      by_cases hk : key = k2
      · subst hk
        simp [JsonFields.setField, JsonFields.lookupField, Ne.symm h]
      · simp [JsonFields.setField, JsonFields.lookupField, hk,
          lookupField_setField_ne t k k2 v h]

theorem lookupField_eraseField_self :
    (fs : JsonFields) → ∀ (k : String),
      (fs.eraseField k).lookupField k = none
  | .nil => by
      intro k
      simp [JsonFields.eraseField, JsonFields.lookupField]
  | .cons key val t => by
      intro k
      by_cases h : key = k
      · simp [JsonFields.eraseField, JsonFields.lookupField, h,
          lookupField_eraseField_self t k]
      · simp [JsonFields.eraseField, JsonFields.lookupField, h,
          lookupField_eraseField_self t k]

theorem lookupField_eraseField_ne :
    (fs : JsonFields) → ∀ (k k2 : String), k ≠ k2 →
      (fs.eraseField k2).lookupField k = fs.lookupField k
  | .nil => by
      intro k k2 h
      simp [JsonFields.eraseField, JsonFields.lookupField]
  | .cons key val t => by
      intro k k2 h
      by_cases hk : key = k2
      · subst hk
        simp [JsonFields.eraseField, JsonFields.lookupField, Ne.symm h,
          lookupField_eraseField_ne t k key h]
      · simp [JsonFields.eraseField, JsonFields.lookupField, hk,
          lookupField_eraseField_ne t k k2 h]

/-- Every format property of the given axis value is absent or falsy
(only an object axis carries properties at all). -/
def axisFormatsStripped (a : Json) : Prop :=
  ∀ afs, a = .obj afs →
    jsonTruthyOpt (afs.lookupField "format") = false
    ∧ jsonTruthyOpt (afs.lookupField "formatType") = false

/-- An object channel whose axis property resolves carries a stripped
axis. -/
def channelStripped (v : Json) : Prop :=
  ∀ vfs, v = .obj vfs → ∀ a, vfs.lookupField "axis" = some a → axisFormatsStripped a

/-- The given predicate holds of every field value. -/
def JsonFields.allVals (P : Json → Prop) : JsonFields → Prop
  | .nil => True
  | .cons _ v t => P v ∧ t.allVals P

/-- The given predicate holds of every element. -/
def JsonList.allElems (P : Json → Prop) : JsonList → Prop
  | .nil => True
  | .cons h t => P h ∧ t.allElems P

/-- Every channel reachable from an encoding value is stripped. -/
def encodingStripped : Json → Prop
  | .obj efs => efs.allVals channelStripped
  | .arr es => es.allElems channelStripped
  | _ => True

theorem sanitizeAxisFields_stripped (afs : JsonFields) :
    jsonTruthyOpt ((sanitizeAxisFields afs).lookupField "format") = false
    ∧ jsonTruthyOpt ((sanitizeAxisFields afs).lookupField "formatType") = false := by
  rw [sanitizeAxisFields]
  by_cases hF : jsonTruthyOpt (afs.lookupField "format")
  · simp only [hF, if_pos]
    by_cases hFT : jsonTruthyOpt ((afs.eraseField "format").lookupField "formatType")
    · simp only [hFT, if_pos]
      constructor
      · rw [lookupField_eraseField_ne _ _ _ (by decide),
          lookupField_eraseField_self]
        rfl
      · rw [lookupField_eraseField_self]; rfl
    · simp only [hFT, if_neg, Bool.not_eq_true]
      constructor
      · rw [lookupField_eraseField_self]; rfl
      · trivial
  · simp only [hF, if_neg, Bool.not_eq_true]
    by_cases hFT : jsonTruthyOpt (afs.lookupField "formatType")
    · simp only [hFT, if_pos]
      constructor
      · rw [lookupField_eraseField_ne _ _ _ (by decide)]
        exact Bool.eq_false_iff.mpr hF
      · rw [lookupField_eraseField_self]; rfl
    · simp only [hFT, if_neg, Bool.not_eq_true]
      exact ⟨Bool.eq_false_iff.mpr hF, trivial⟩

theorem transformChannel_stripped (v : Json) :
    channelStripped (transformChannel v) := by
  cases v with
  | obj vfs =>
      cases hx : vfs.lookupField "axis" with
      | none =>
          intro vfs2 hv a ha
          rw [transformChannel, hx] at hv
          cases hv
          rw [hx] at ha
          cases ha
      | some a0 =>
          cases a0 with
          | obj afs =>
              intro vfs2 hv a ha
              rw [transformChannel, hx] at hv
              cases hv
              rw [lookupField_setField_self] at ha
              cases ha
              intro afs2 heq
              cases heq
              exact sanitizeAxisFields_stripped afs
          | null =>
              intro vfs2 hv a ha
              rw [transformChannel, hx] at hv
              cases hv
              rw [hx] at ha
              cases ha
              intro afs2 heq
              cases heq
          | bool b =>
              intro vfs2 hv a ha
              rw [transformChannel, hx] at hv
              cases hv
              rw [hx] at ha
              cases ha
              intro afs2 heq
              cases heq
          | num q =>
              intro vfs2 hv a ha
              rw [transformChannel, hx] at hv
              cases hv
              rw [hx] at ha
              cases ha
              intro afs2 heq
              cases heq
          | str s =>
              intro vfs2 hv a ha
              rw [transformChannel, hx] at hv
              cases hv
              rw [hx] at ha
              cases ha
              intro afs2 heq
              cases heq
          | arr es =>
              intro vfs2 hv a ha
              rw [transformChannel, hx] at hv
              cases hv
              rw [hx] at ha
              cases ha
              intro afs2 heq
              cases heq
  | null => intro vfs2 hv; simp [transformChannel] at hv
  | bool b => intro vfs2 hv; simp [transformChannel] at hv
  | num q => intro vfs2 hv; simp [transformChannel] at hv
  | str s => intro vfs2 hv; simp [transformChannel] at hv
  | arr es => intro vfs2 hv; simp [transformChannel] at hv

theorem allVals_mapVals (P : Json → Prop) (f : Json → Json)
    (h : ∀ v, P (f v)) :
    (fs : JsonFields) → (fs.mapVals f).allVals P
  | .nil => trivial
  | .cons _ v t => ⟨h v, allVals_mapVals P f h t⟩

theorem allElems_mapElems (P : Json → Prop) (f : Json → Json)
    (h : ∀ v, P (f v)) :
    (es : JsonList) → (es.mapElems f).allElems P
  | .nil => trivial
  | .cons hd t => ⟨h hd, allElems_mapElems P f h t⟩

theorem transformEncoding_stripped (e : Json) :
    encodingStripped (transformEncoding e) := by
  cases e with
  | obj efs =>
      exact allVals_mapVals channelStripped transformChannel
        transformChannel_stripped efs
  | arr es =>
      exact allElems_mapElems channelStripped transformChannel
        transformChannel_stripped es
  | null => trivial
  | bool b => trivial
  | num q => trivial
  | str s => trivial

theorem transformEncoding_truthy (e : Json) :
    (transformEncoding e).truthy = e.truthy := by
  cases e <;> rfl

theorem sanitizeEncodingPass_mark (s : JsonFields) :
    (sanitizeEncodingPass s).lookupField "mark" = s.lookupField "mark" := by
  rw [sanitizeEncodingPass]
  cases hx : s.lookupField "encoding" with
  | none => rfl
  | some e =>
      by_cases he : e.truthy
      · simp only [he, if_pos]
        exact lookupField_setField_ne s "mark" "encoding" _ (by decide)
      · simp [he]

theorem defaultMarkPass_encoding (s : JsonFields) :
    (defaultMarkPass s).lookupField "encoding" = s.lookupField "encoding" := by
  rw [defaultMarkPass]
  by_cases h : jsonTruthyOpt (s.lookupField "mark")
  · simp [h]
  · simp only [Bool.not_eq_true] at h
    simp only [h, Bool.not_false, if_pos]
    exact lookupField_setField_ne s "encoding" "mark" _ (by decide)

theorem defaultMarkPass_mark (s : JsonFields) :
    ∃ m, (defaultMarkPass s).lookupField "mark" = some m := by
  rw [defaultMarkPass]
  by_cases h : jsonTruthyOpt (s.lookupField "mark")
  · cases hm : s.lookupField "mark" with
    | none => rw [hm] at h; cases h
    | some m =>
        rw [hm] at h
        exact ⟨m, by simp [h, hm]⟩
  · simp only [Bool.not_eq_true] at h
    exact ⟨.str "bar", by simp [h, lookupField_setField_self]⟩

theorem defaultMarkPass_mark_absent (s : JsonFields)
    (h : s.lookupField "mark" = none) :
    (defaultMarkPass s).lookupField "mark" = some (.str "bar") := by
  rw [defaultMarkPass, h]
  simp [jsonTruthyOpt, lookupField_setField_self]

/-- The encoding of a sanitised spec is either the empty-object default
(exactly when the incoming encoding was absent or falsy) or the
channel-transformed version of a truthy incoming encoding. -/
theorem sanitized_encoding_cases (chartSpec : JsonFields) :
    ((sanitizeChartSpec chartSpec).lookupField "encoding" = some (.obj .nil)
      ∧ jsonTruthyOpt (chartSpec.lookupField "encoding") = false)
    ∨ ∃ e, chartSpec.lookupField "encoding" = some e ∧ e.truthy = true
        ∧ (sanitizeChartSpec chartSpec).lookupField "encoding"
            = some (transformEncoding e) := by
  have hdef : sanitizeChartSpec chartSpec
      = defaultEncodingPass (defaultMarkPass (sanitizeEncodingPass chartSpec)) := by
    rw [sanitizeChartSpec, JsonFields.deepCloneFields_id]
  have henc2 := defaultMarkPass_encoding (sanitizeEncodingPass chartSpec)
  rw [hdef]
  cases hx : chartSpec.lookupField "encoding" with
  | none =>
      left
      have h1 : (sanitizeEncodingPass chartSpec).lookupField "encoding" = none := by
        rw [sanitizeEncodingPass, hx]
        exact hx
      constructor
      · rw [defaultEncodingPass, henc2, h1]
        simp [jsonTruthyOpt, lookupField_setField_self]
      · rfl
  | some e =>
      by_cases he : e.truthy
      · right
        refine ⟨e, rfl, he, ?_⟩
        have h1 : (sanitizeEncodingPass chartSpec).lookupField "encoding"
            = some (transformEncoding e) := by
          rw [sanitizeEncodingPass, hx]
          simp [he, lookupField_setField_self]
        rw [defaultEncodingPass, henc2, h1]
        simp [jsonTruthyOpt, transformEncoding_truthy, he, henc2, h1]
      · left
        simp only [Bool.not_eq_true] at he
        have h1 : (sanitizeEncodingPass chartSpec).lookupField "encoding"
            = some e := by
          rw [sanitizeEncodingPass, hx]
          simp only [he, Bool.false_eq_true, if_neg, not_false_iff]
          exact hx
        constructor
        · rw [defaultEncodingPass, henc2, h1]
          simp [jsonTruthyOpt, he, lookupField_setField_self]
        · simp [jsonTruthyOpt, he]

/-- C9 counterexample inputs: a spec whose axis format is a falsy
(empty) string, and a spec whose encoding is a truthy non-object. -/
def c9FalsyFormatSpec : JsonFields :=
  .cons "encoding"
    (.obj (.cons "x" (.obj (.cons "axis"
      (.obj (.cons "format" (.str "") .nil)) .nil)) .nil)) .nil

def c9StringEncodingSpec : JsonFields :=
  .cons "encoding" (.str "x") .nil

/-- C9 counterexample: on a spec whose axis format is the empty string
(a falsy value) the format field survives sanitisation, and on a spec
whose encoding is a truthy non-object value the result encoding stays a
string — refuting both the removal of every axis format field and the
claim that the result always carries an encoding object. -/
theorem c9_sanitize_counterexample :
    sanitizeChartSpec c9FalsyFormatSpec
      = .cons "encoding"
          (.obj (.cons "x" (.obj (.cons "axis"
            (.obj (.cons "format" (.str "") .nil)) .nil)) .nil))
          (.cons "mark" (.str "bar") .nil)
    ∧ sanitizeChartSpec c9StringEncodingSpec
        = .cons "encoding" (.str "x") (.cons "mark" (.str "bar") .nil) :=
  ⟨rfl, rfl⟩

/-- C9 amended: sanitizeChartSpec operates on a deep clone and the pure
input value is untouched; the result always carries a mark field (the
bar default when the input has none), its encoding is an object whenever
the input encoding is absent, falsy, or itself an object (a truthy
non-object encoding is kept as-is), and in the result no channel axis
retains a truthy format or formatType property — truthy values are
removed, falsy ones are left in place. -/
theorem c9_sanitize_chart_spec (chartSpec : JsonFields) :
    (chartSpec.deepClone = chartSpec
      ∧ sanitizeChartSpec chartSpec
          = defaultEncodingPass (defaultMarkPass (sanitizeEncodingPass chartSpec)))
    ∧ (∃ m, (sanitizeChartSpec chartSpec).lookupField "mark" = some m)
    ∧ (chartSpec.lookupField "mark" = none →
        (sanitizeChartSpec chartSpec).lookupField "mark" = some (.str "bar"))
    ∧ ((jsonTruthyOpt (chartSpec.lookupField "encoding") = false
          ∨ ∃ efs, chartSpec.lookupField "encoding" = some (.obj efs)) →
        ∃ efs2, (sanitizeChartSpec chartSpec).lookupField "encoding"
          = some (.obj efs2))
    ∧ (∀ e, (sanitizeChartSpec chartSpec).lookupField "encoding" = some e →
        encodingStripped e) := by
  have hclone : chartSpec.deepClone = chartSpec := JsonFields.deepCloneFields_id chartSpec
  have hdef : sanitizeChartSpec chartSpec
      = defaultEncodingPass (defaultMarkPass (sanitizeEncodingPass chartSpec)) := by
    rw [sanitizeChartSpec, hclone]
  have hmarkeq : (sanitizeChartSpec chartSpec).lookupField "mark"
      = (defaultMarkPass (sanitizeEncodingPass chartSpec)).lookupField "mark" := by
    rw [hdef, defaultEncodingPass]
    by_cases h : jsonTruthyOpt
        ((defaultMarkPass (sanitizeEncodingPass chartSpec)).lookupField "encoding")
    · simp [h]
    · simp only [Bool.not_eq_true] at h
      simp only [h, Bool.not_false, if_pos]
      exact lookupField_setField_ne _ "mark" "encoding" _ (by decide)
  refine ⟨⟨hclone, hdef⟩, ?_, ?_, ?_, ?_⟩
  · rw [hmarkeq]
    exact defaultMarkPass_mark _
  · intro h
    rw [hmarkeq]
    apply defaultMarkPass_mark_absent
    rw [sanitizeEncodingPass_mark]
    exact h
  · intro hin
    rcases sanitized_encoding_cases chartSpec with ⟨hres, _⟩ | ⟨e, hx, he, hres⟩
    · exact ⟨.nil, hres⟩
    · rcases hin with hfal | ⟨efs, heq⟩
      · rw [hx] at hfal
        simp [jsonTruthyOpt, he] at hfal
      · rw [hx] at heq
        cases heq
        exact ⟨efs.mapVals transformChannel, hres⟩
  · intro e he
    rcases sanitized_encoding_cases chartSpec with ⟨hres, _⟩ | ⟨e0, _, _, hres⟩
    · rw [hres] at he
      cases he
      trivial
    · rw [hres] at he
      cases he
      exact transformEncoding_stripped e0

/-- Witness for C9 at the falsy-format spec: the mark default fires,
the result encoding is an object, and every surviving axis format value
in the result is falsy. -/
theorem c9_sanitize_chart_spec_witness :
    (sanitizeChartSpec c9FalsyFormatSpec).lookupField "mark" = some (.str "bar")
    ∧ (∃ efs2, (sanitizeChartSpec c9FalsyFormatSpec).lookupField "encoding"
        = some (.obj efs2))
    ∧ encodingStripped
        (.obj (.cons "x" (.obj (.cons "axis"
          (.obj (.cons "format" (.str "") .nil)) .nil)) .nil)) :=
  ⟨(c9_sanitize_chart_spec c9FalsyFormatSpec).2.2.1 rfl,
    (c9_sanitize_chart_spec c9FalsyFormatSpec).2.2.2.1 (Or.inr ⟨_, rfl⟩),
    (c9_sanitize_chart_spec c9FalsyFormatSpec).2.2.2.2 _ rfl⟩

end AwsToolsCli
